import Mathlib

/-!
Verification development for the collaborative notarization client
(videoCall-client). We shallowly embed the shared document state store
(YjsContext: addField / updateField / deleteField / updateApproval over the
`fields`, `approvals` and `usedFields` replicated maps), the field editing
surface (PdfFieldCollaborator: createField, allApproved, handleExport), the
export pipeline (pdfExport: createPdfTemplate, sendToBackend / downloadJson
fallback) and the annotation channel (PdfCollaborator: handleRemoteData,
clearPage), and prove the specified properties about them.

Replicated key/value maps (Yjs `Y.Map`) are modelled as association lists
with one entry per key; `set` replaces the entry in place or appends a fresh
one, `delete` removes the key, `get` returns the first value, matching the
observable map semantics used by the source.
-/

namespace VideoCall

/-! ## Association-list model of the replicated key/value maps -/

/-- `Y.Map.get`: value stored at key `k`, if any. -/
def mapGet {κ α : Type} [DecidableEq κ] (k : κ) : List (κ × α) → Option α
  | [] => none
  | (k', v) :: rest => if k' = k then some v else mapGet k rest

/-- `Y.Map.set`: replace the entry at key `k` in place, or append it. -/
def mapSet {κ α : Type} [DecidableEq κ] (k : κ) (v : α) :
    List (κ × α) → List (κ × α)
  | [] => [(k, v)]
  | (k', v') :: rest =>
      if k' = k then (k, v) :: rest else (k', v') :: mapSet k v rest

/-- `Y.Map.delete`: remove every entry at key `k`. -/
def mapDelete {κ α : Type} [DecidableEq κ] (k : κ) :
    List (κ × α) → List (κ × α)
  | [] => []
  | (k', v) :: rest =>
      if k' = k then mapDelete k rest else (k', v) :: mapDelete k rest

/-- `map.get(k) || dflt` as used by the drawing accumulation lists. -/
def mapGetD {κ α : Type} [DecidableEq κ] (k : κ) (m : List (κ × α)) (dflt : α) : α :=
  (mapGet k m).getD dflt


/-! ## Data model (src/types/pdfFields.ts, src/types/collab.ts)

Numeric coordinates are modelled over `ℚ` (exact rational arithmetic in
place of JS doubles). -/

/-- One placement record of a field (`PdfFieldArea`). -/
structure PdfFieldArea where
  x : ℚ
  y : ℚ
  w : ℚ
  h : ℚ
  page : Nat
  attachment_uuid : String
deriving DecidableEq, Repr

/-- One document form element (`PdfField`). `preferences` is the open
key/value configuration, kept as an association list. -/
structure PdfField where
  id : String
  type : String
  name : String
  title : String
  submitter_uuid : String
  required : Bool
  default_value : String
  role : String
  preferences : List (String × String)
  uuid : String
  areas : List PdfFieldArea
deriving DecidableEq, Repr

/-- `PdfSubmitter`. -/
structure PdfSubmitter where
  name : String
  uuid : String
deriving DecidableEq, Repr

/-- `PdfSchema` entry of the export payload. -/
structure PdfSchema where
  name : String
  attachment_uuid : String
deriving DecidableEq, Repr

/-- `PdfTemplate`: the export payload body. -/
structure PdfTemplate where
  name : String
  schema : List PdfSchema
  submitters : List PdfSubmitter
  fields : List PdfField
deriving DecidableEq, Repr

/-- `ExportData`: `{ template: PdfTemplate }`. -/
structure ExportData where
  template : PdfTemplate
deriving DecidableEq, Repr

/-! ## Shared document state store (YjsContext, src/contexts/YjsContext.tsx)

The three Yjs maps of the document: `fields` (id → field record),
`approvals` (submitter uuid → bool), `usedFields` (field type → submitter
uuid). -/

structure Store where
  fields : List (String × PdfField)
  approvals : List (String × Bool)
  usedFields : List (String × String)
deriving DecidableEq, Repr

/-- The store of a fresh `Y.Doc`: all three maps empty. -/
def emptyStore : Store := ⟨[], [], []⟩

/-- `addField`: `fieldsMap.set(field.id, field)` and
`usedFieldsMap.set(field.type, field.submitter_uuid)`. -/
def addField (s : Store) (f : PdfField) : Store :=
  { s with
    fields := mapSet f.id f s.fields
    usedFields := mapSet f.type f.submitter_uuid s.usedFields }

/-- `Partial<PdfField>`: each attribute optionally present. -/
structure PdfFieldUpdate where
  id : Option String := none
  type : Option String := none
  name : Option String := none
  title : Option String := none
  submitter_uuid : Option String := none
  required : Option Bool := none
  default_value : Option String := none
  role : Option String := none
  preferences : Option (List (String × String)) := none
  uuid : Option String := none
  areas : Option (List PdfFieldArea) := none
deriving DecidableEq, Repr

/-- The JS object spread `{ ...field, ...updates }`: a shallow per-attribute
merge; an update that carries `areas` replaces the whole list. -/
def mergeField (f : PdfField) (u : PdfFieldUpdate) : PdfField where
  id := u.id.getD f.id
  type := u.type.getD f.type
  name := u.name.getD f.name
  title := u.title.getD f.title
  submitter_uuid := u.submitter_uuid.getD f.submitter_uuid
  required := u.required.getD f.required
  default_value := u.default_value.getD f.default_value
  role := u.role.getD f.role
  preferences := u.preferences.getD f.preferences
  uuid := u.uuid.getD f.uuid
  areas := u.areas.getD f.areas

/-- `updateField(fieldId, updates)`: re-store the shallow merge if the record
exists, otherwise do nothing. -/
def updateField (s : Store) (fieldId : String) (u : PdfFieldUpdate) : Store :=
  match mapGet fieldId s.fields with
  | none => s
  | some f => { s with fields := mapSet fieldId (mergeField f u) s.fields }

/-- `deleteField(fieldId)`: remove the record and delete the `usedFields`
entry for the record's type (unconditionally, as the source does). -/
def deleteField (s : Store) (fieldId : String) : Store :=
  match mapGet fieldId s.fields with
  | none => s
  | some f =>
      { s with
        fields := mapDelete fieldId s.fields
        usedFields := mapDelete f.type s.usedFields }

/-- `updateApproval(submitterUuid, approved)`. -/
def updateApproval (s : Store) (submitterUuid : String) (approved : Bool) : Store :=
  { s with approvals := mapSet submitterUuid approved s.approvals }

/-! ## Field editing surface (PdfFieldCollaborator)

`createField(type, x, y, w, h)` guards on role and the used-fields lock,
then normalizes the pixel rect by the rendering canvas's dimensions at call
time and inserts the new record through `addField`. -/

/-- The `(id, title)` pairs of the `toolbarItems` array. -/
def toolbarItems : List (String × String) :=
  [("text", "Text Field"), ("signature", "Signature"), ("date", "Date"),
   ("checkbox", "Checkbox"), ("select", "Select")]

/-- `toolbarItems.find(item => item.id === type)?.title || type`. -/
def toolbarTitle (t : String) : String :=
  ((toolbarItems.find? (fun p => p.1 == t)).map Prod.snd).getD t

/-- Call-time environment of `createField`: the caller's role and identity,
the currently displayed page, the rendering canvas's pixel dimensions at the
moment of the call, the three generated uuids, and today's ISO date. -/
structure CreateFieldEnv where
  isNotary : Bool
  submitterUuid : String
  submitterName : String
  currentPage : Nat
  canvasWidth : ℚ
  canvasHeight : ℚ
  fieldId : String
  fieldUuid : String
  attachmentUuid : String
  today : String
deriving Repr

/-- `createField(type, x, y, w, h)`: returns the store after the call
together with the field record broadcast to the peers (`none` when the call
was rejected before any mutation). Blocked when the caller is not the notary
or `usedFields` already has an entry for `type`; otherwise the pixel rect is
normalized by the canvas dimensions and the record is added via `addField`. -/
def createField (env : CreateFieldEnv) (s : Store) (tpe : String)
    (x y w h : ℚ) : Store × Option PdfField :=
  if !env.isNotary || (mapGet tpe s.usedFields).isSome then (s, none)
  else
    let f : PdfField :=
      { id := env.fieldId
        type := tpe
        name := tpe
        title := toolbarTitle tpe
        submitter_uuid := env.submitterUuid
        required := false
        default_value := if tpe = "date" then env.today else ""
        role := env.submitterName
        preferences := if tpe = "date" then [("format", "DD/MM/YYYY")] else []
        uuid := env.fieldUuid
        areas := [{ x := x / env.canvasWidth
                    y := y / env.canvasHeight
                    w := w / env.canvasWidth
                    h := h / env.canvasHeight
                    page := env.currentPage
                    attachment_uuid := env.attachmentUuid }] }
    (addField s f, some f)

/-- Receiver-side placement of a field area on a canvas of the given pixel
dimensions (`area.x * canvas.width`, `area.y * canvas.height`,
`area.w * canvas.width`, `area.h * canvas.height`). -/
def denormalizeArea (a : PdfFieldArea) (cw ch : ℚ) : ℚ × ℚ × ℚ × ℚ :=
  (a.x * cw, a.y * ch, a.w * cw, a.h * ch)

/-! ## Export pipeline (handleExport, src/lib/pdfExport.ts) -/

/-- `Object.values(approvals).every(approved => approved)`: every entry
present in the approvals map is `true` (vacuously true on an empty map). -/
def allApproved (approvals : List (String × Bool)) : Bool :=
  approvals.all (fun p => p.2)

/-- `createPdfTemplate(fields, submitters, templateName)`: the export
payload. `nowIso` stands for the sanitized `new Date().toISOString()`
timestamp appended to the template name. -/
def createPdfTemplate (fields : List PdfField) (submitters : List PdfSubmitter)
    (templateName : String) (nowIso : String) : ExportData :=
  { template :=
      { name := templateName ++ "_" ++ nowIso
        schema := [{ name := "Sample Local PDF.pdf"
                     attachment_uuid := "c78a37f8-7709-4d85-b5b8-a04545e22738" }]
        submitters := submitters
        fields := fields } }

/-- Outcome of the `sendToBackend` HTTP POST: a 2xx response, a non-2xx
response, or a thrown network failure. -/
inductive BackendResult
  | ok
  | httpError
  | networkError
deriving DecidableEq, Repr

/-- Outcome of `handleExport`, each carrying the user-facing alert path:
blocked by the approval gate, saved via the backend POST, or downloaded
locally as the fallback. -/
inductive ExportOutcome
  | blocked
  | remoteSaved (payload : ExportData)
  | localDownload (payload : ExportData)
deriving DecidableEq, Repr

/-- The user-facing alert text shown for each outcome of `handleExport`. -/
def exportAlertText : ExportOutcome → String
  | .blocked => "All participants must approve before exporting"
  | .remoteSaved _ => "Template successfully saved to backend!"
  | .localDownload _ => "Template downloaded locally (backend unavailable)"

/-- `handleExport()`: blocked unless `allApproved`; otherwise builds the
payload, tries the backend POST first, and on a non-ok response or a thrown
network failure falls back to the local download of the same payload. -/
def handleExport (approvals : List (String × Bool)) (fields : List PdfField)
    (submitters : List PdfSubmitter) (backend : BackendResult)
    (nowIso : String) : ExportOutcome :=
  if !allApproved approvals then .blocked
  else
    let payload := createPdfTemplate fields submitters "Sample Local PDF" nowIso
    match backend with
    | .ok => .remoteSaved payload
    | .httpError => .localDownload payload
    | .networkError => .localDownload payload

/-! ## Annotation/cursor channel (src/types/collab.ts, PdfCollaborator) -/

/-- `DrawOp`. -/
structure DrawOp where
  page : Nat
  path : List (ℚ × ℚ)
  color : String
  strokeWidth : ℚ
  normalized : Bool
deriving DecidableEq, Repr

/-- `TextOp`. -/
structure TextOp where
  page : Nat
  x : ℚ
  y : ℚ
  value : String
  fontSize : ℚ
  color : String
deriving DecidableEq, Repr

/-- `CursorOp`. -/
structure CursorOp where
  x : ℚ
  y : ℚ
  page : Nat
  isVisible : Bool
  normalized : Bool
deriving DecidableEq, Repr

/-- `CollabOp = DrawOp | TextOp | ClearOp | CursorOp`. -/
inductive CollabOp
  | draw (d : DrawOp)
  | text (t : TextOp)
  | clear (page : Nat)
  | cursor (c : CursorOp)
deriving DecidableEq, Repr

/-- One line segment stroked directly onto the overlay canvas by the
live-segment fast path of `handleRemoteData`. -/
structure OverlaySeg where
  p0 : ℚ × ℚ
  p1 : ℚ × ℚ
  color : String
  lineWidth : ℚ
deriving DecidableEq, Repr

/-- Receiver-side state of `PdfCollaborator`: the displayed page, the
overlay canvas (whether the ref is mounted, its pixel dimensions, and the
segments stroked directly onto it), the per-page accumulation lists
`drawings` and `texts`, and the debounced pending remote-cursor update. -/
structure AnnState where
  currentPage : Nat
  overlayPresent : Bool
  overlayWidth : ℚ
  overlayHeight : ℚ
  overlaySegs : List OverlaySeg
  drawings : List (Nat × List DrawOp)
  texts : List (Nat × List TextOp)
  pendingCursor : Option CursorOp
deriving DecidableEq, Repr

/-- `toPx`: denormalize a point by the receiver's overlay dimensions when
the op is flagged normalized, else use it as-is. -/
def toPx (normalized : Bool) (cw ch : ℚ) (pt : ℚ × ℚ) : ℚ × ℚ :=
  if normalized then (pt.1 * cw, pt.2 * ch) else pt

/-- `newDrawings.set(page, [...(newDrawings.get(page) || []), data])`. -/
def appendDrawing (s : AnnState) (d : DrawOp) : AnnState :=
  { s with drawings := mapSet d.page (mapGetD d.page s.drawings [] ++ [d]) s.drawings }

/-- `newTexts.set(page, [...(newTexts.get(page) || []), data])`. -/
def appendText (s : AnnState) (t : TextOp) : AnnState :=
  { s with texts := mapSet t.page (mapGetD t.page s.texts [] ++ [t]) s.texts }

/-- The line segment stroked onto the overlay by the live-segment fast path
(`toPx` of the two path points, the op's color, and
`Math.max(1, data.strokeWidth || 1)`). -/
def liveSegmentOf (s : AnnState) (d : DrawOp) : OverlaySeg :=
  { p0 := toPx d.normalized s.overlayWidth s.overlayHeight (d.path.getD 0 (0, 0))
    p1 := toPx d.normalized s.overlayWidth s.overlayHeight (d.path.getD 1 (0, 0))
    color := d.color
    lineWidth := max 1 d.strokeWidth }

/-- `handleRemoteData(data)`. A draw op with exactly two points whose page
is the currently displayed one is stroked directly onto the overlay (when
the overlay ref is mounted) and returns without touching the accumulation
lists; every other draw op is appended to its page's accumulation list.
Text ops are appended, a clear op resets both lists of its page, and a
cursor op only schedules the debounced cursor update. -/
def handleRemoteData (s : AnnState) (op : CollabOp) : AnnState :=
  match op with
  | .draw d =>
      if d.path.length == 2 && s.overlayPresent && (d.page == s.currentPage) then
        { s with overlaySegs := s.overlaySegs ++ [liveSegmentOf s d] }
      else
        appendDrawing s d
  | .text t => appendText s t
  | .clear p =>
      { s with drawings := mapSet p [] s.drawings, texts := mapSet p [] s.texts }
  | .cursor c => { s with pendingCursor := some c }

/-- `clearPage()`: rejected unless the caller is the notary with an open
data track; otherwise resets both accumulation lists of the current page and
broadcasts the clear op. -/
def clearPage (isNotary hasLocalDataTrack : Bool) (s : AnnState) :
    AnnState × Option CollabOp :=
  if !isNotary || !hasLocalDataTrack then (s, none)
  else
    ({ s with drawings := mapSet s.currentPage [] s.drawings
              texts := mapSet s.currentPage [] s.texts },
     some (.clear s.currentPage))

/-! ## Inbound message handling (VideoRoom data-track handler, ws.onmessage)

`track.on('message', ...)` wraps `JSON.parse` in a try/catch: an
unparseable payload is logged and dropped. The parse result of the external
`JSON.parse` is embedded as an `Option CollabOp`. -/

/-- The data-track message handler of `VideoRoom.handleTrackSubscribed`:
dispatch the parsed op, or log and drop the message when parsing threw. -/
def onDataTrackMessage (s : AnnState) (parsed : Option CollabOp) : AnnState :=
  match parsed with
  | some op => handleRemoteData s op
  | none => s

/-- One key-level write carried by a remote Yjs delta. -/
inductive StoreWrite
  | setField (id : String) (f : PdfField)
  | delField (id : String)
  | setApproval (u : String) (b : Bool)
  | setUsed (t : String) (u : String)
  | delUsed (t : String)
deriving DecidableEq, Repr

/-- Apply one remote write to the local replicated maps. -/
def applyWrite (s : Store) : StoreWrite → Store
  | .setField i f => { s with fields := mapSet i f s.fields }
  | .delField i => { s with fields := mapDelete i s.fields }
  | .setApproval u b => { s with approvals := mapSet u b s.approvals }
  | .setUsed t u => { s with usedFields := mapSet t u s.usedFields }
  | .delUsed t => { s with usedFields := mapDelete t s.usedFields }

/-- `Y.applyUpdate`: apply the writes of a decoded remote delta in order. -/
def applyUpdate (s : Store) (u : List StoreWrite) : Store :=
  u.foldl applyWrite s

/-- An inbound sync-socket message: binary data (an `ArrayBuffer` or a
`Blob`) whose decoding as a Yjs update may fail, or an unexpected string. -/
inductive WsData
  | binary (decoded : Option (List StoreWrite))
  | blobData (decoded : Option (List StoreWrite))
  | textData (v : String)
deriving DecidableEq, Repr

/-- `ws.onmessage`: apply a successfully decoded binary update; a decoding
failure is caught and logged, and a string payload is warned about and
ignored — in both failure cases the store is untouched. -/
def wsOnMessage (s : Store) (d : WsData) : Store :=
  match d with
  | .binary (some u) => applyUpdate s u
  | .binary none => s
  | .blobData (some u) => applyUpdate s u
  | .blobData none => s
  | .textData _ => s

/-! ## Operation sequences on the store

Sequences of `addField`/`deleteField` calls, and the preconditions the
field editing surface establishes before each `addField` (a freshly
generated uuid for the id and a type with no `usedFields` entry — the
`createField` guard). -/

/-- One store mutation of the field set. -/
inductive StoreOp
  | add (f : PdfField)
  | del (fieldId : String)
deriving DecidableEq, Repr

/-- Apply one `StoreOp`. -/
def applyStoreOp (s : Store) : StoreOp → Store
  | .add f => addField s f
  | .del i => deleteField s i

/-- Apply a sequence of `StoreOp`s in order. -/
def applyStoreOps (s : Store) (ops : List StoreOp) : Store :=
  ops.foldl applyStoreOp s

/-- The sequence is guarded: every `add` happens only when the field's type
has no `usedFields` entry and no record with the field's id exists — the
preconditions `createField` enforces (type guard plus `uuidv4()` freshness)
before calling `addField`. -/
def guardedOpsB : Store → List StoreOp → Bool
  | _, [] => true
  | s, .add f :: rest =>
      (mapGet f.type s.usedFields).isNone && (mapGet f.id s.fields).isNone &&
        guardedOpsB (addField s f) rest
  | s, .del i :: rest => guardedOpsB (deleteField s i) rest

/-- Well-formedness of the store that the guarded operations maintain:
distinct field keys, distinct field types, and the used-fields exclusivity
index invariant (entry for a type iff a live field of that type exists). -/
structure StoreWF (s : Store) : Prop where
  keys : (s.fields.map Prod.fst).Nodup
  types : (s.fields.map (fun p => p.2.type)).Nodup
  used : ∀ t : String,
    (mapGet t s.usedFields).isSome = true ↔ ∃ p ∈ s.fields, p.2.type = t

/-! ## Concrete sample data -/

/-- The three submitters of the export-gating scenario. -/
def sampleSubmitters : List PdfSubmitter :=
  [⟨"Notary", "u1"⟩, ⟨"Client", "u2"⟩, ⟨"Third", "u3"⟩]

/-- A sample field record. -/
def sampleField : PdfField :=
  { id := "f1", type := "text", name := "text", title := "Text Field",
    submitter_uuid := "u1", required := false, default_value := "",
    role := "Notary", preferences := [], uuid := "fu1",
    areas := [⟨1/5, 3/10, 1/10, 1/20, 1, "att-1"⟩] }

/-- A text field owned by `u1` with id `"a"`. -/
def fieldTextA : PdfField :=
  { id := "a", type := "text", name := "text", title := "Text Field",
    submitter_uuid := "u1", required := false, default_value := "",
    role := "Notary", preferences := [], uuid := "ua",
    areas := [⟨1/10, 1/10, 1/10, 1/20, 1, "att-1"⟩] }

/-- A second text field, owned by `u2`, with id `"b"`. -/
def fieldTextB : PdfField :=
  { id := "b", type := "text", name := "text", title := "Text Field",
    submitter_uuid := "u2", required := false, default_value := "",
    role := "Client", preferences := [], uuid := "ub",
    areas := [⟨1/2, 1/2, 1/10, 1/20, 1, "att-1"⟩] }

/-- Add two fields of the same type, then delete the first: the store the
unguarded sequence reaches. -/
def usedFieldsCexStore : Store :=
  deleteField (addField (addField emptyStore fieldTextA) fieldTextB) "a"

/-- A guarded sample sequence: add a text field, delete it, add another. -/
def sampleOps : List StoreOp :=
  [.add fieldTextA, .del "a", .add fieldTextB]

/-- A partial update carrying only a replacement `areas` list. -/
def areaUpdate : PdfFieldUpdate :=
  { areas := some [⟨1/2, 1/2, 1/10, 1/20, 2, "att-2"⟩] }

/-- A notary-side `createField` environment on an 800×1000 canvas. -/
def sampleEnv : CreateFieldEnv :=
  ⟨true, "u1", "Notary", 1, 800, 1000, "f1", "fu1", "att-1", "2026-10-11"⟩

/-- A client-side (non-notary) `createField` environment. -/
def clientEnv : CreateFieldEnv :=
  ⟨false, "u2", "Client", 1, 800, 1000, "f2", "fu2", "att-1", "2026-10-11"⟩

/-- A receiver displaying page 1 with a mounted 800×1000 overlay and empty
accumulation lists. -/
def annState0 : AnnState :=
  ⟨1, true, 800, 1000, [], [], [], none⟩

/-- A two-point live segment addressed to page 2. -/
def liveSegOtherPage : DrawOp :=
  ⟨2, [(0, 0), (1/2, 1/2)], "#000000", 2, true⟩

/-- A two-point live segment addressed to page 1. -/
def liveSegSamePage : DrawOp :=
  ⟨1, [(1/4, 1/4), (1/2, 1/2)], "#000000", 2, true⟩

/-- A completed five-point stroke on page 1. -/
def fullStroke5 : DrawOp :=
  ⟨1, [(0, 0), (1/10, 1/10), (1/5, 1/5), (3/10, 3/10), (2/5, 2/5)], "#ff0000", 3, true⟩

/-! ## Lemma section -/

theorem mapGet_mapSet_self {κ α : Type} [DecidableEq κ] (k : κ) (v : α)
    (m : List (κ × α)) : mapGet k (mapSet k v m) = some v := by
  induction m with
  | nil => simp [mapGet, mapSet]
  | cons p rest ih =>
      obtain ⟨k', v'⟩ := p
      by_cases h : k' = k
      · simp [mapGet, mapSet, h]
      · simp [mapGet, mapSet, h, ih]

theorem mapGet_mapSet_ne {κ α : Type} [DecidableEq κ] {k k' : κ} (v : α)
    (m : List (κ × α)) (h : k ≠ k') : mapGet k' (mapSet k v m) = mapGet k' m := by
  induction m with
  | nil => simp [mapGet, mapSet, h]
  | cons p rest ih =>
      obtain ⟨k0, v0⟩ := p
      by_cases h0 : k0 = k
      · subst h0; simp [mapGet, mapSet, h]
      · simp only [mapSet, if_neg h0]
        by_cases h1 : k0 = k'
        · simp [mapGet, h1]
        · simp [mapGet, h1, ih]

theorem mapGet_mapDelete_self {κ α : Type} [DecidableEq κ] (k : κ)
    (m : List (κ × α)) : mapGet k (mapDelete k m) = none := by
  induction m with
  | nil => simp [mapGet, mapDelete]
  | cons p rest ih =>
      obtain ⟨k', v⟩ := p
      by_cases h : k' = k
      · simp [mapDelete, h, ih]
      · simp [mapGet, mapDelete, h, ih]

theorem mapGet_mapDelete_ne {κ α : Type} [DecidableEq κ] {k k' : κ}
    (m : List (κ × α)) (h : k ≠ k') : mapGet k' (mapDelete k m) = mapGet k' m := by
  induction m with
  | nil => simp [mapDelete]
  | cons p rest ih =>
      obtain ⟨k0, v0⟩ := p
      by_cases h0 : k0 = k
      · have hd : mapDelete k ((k0, v0) :: rest) = mapDelete k rest := by
          simp [mapDelete, h0]
        have hk : k0 ≠ k' := by rw [h0]; exact h
        rw [hd, ih]
        simp [mapGet, hk]
      · have hd : mapDelete k ((k0, v0) :: rest) = (k0, v0) :: mapDelete k rest := by
          simp [mapDelete, h0]
        rw [hd]
        by_cases h1 : k0 = k'
        · simp [mapGet, h1]
        · simp [mapGet, h1, ih]

theorem mem_mapDelete {κ α : Type} [DecidableEq κ] {k : κ} {p : κ × α}
    {m : List (κ × α)} : p ∈ mapDelete k m ↔ p ∈ m ∧ p.1 ≠ k := by
  induction m with
  | nil => simp [mapDelete]
  | cons q rest ih =>
      obtain ⟨k0, v0⟩ := q
      by_cases h0 : k0 = k
      · have hd : mapDelete k ((k0, v0) :: rest) = mapDelete k rest := by
          simp [mapDelete, h0]
        rw [hd, ih]
        constructor
        · rintro ⟨hp, hne⟩; exact ⟨List.mem_cons_of_mem _ hp, hne⟩
        · rintro ⟨hp, hne⟩
          rcases List.mem_cons.mp hp with rfl | h1
          · exact absurd h0 (by simpa using hne)
          · exact ⟨h1, hne⟩
      · have hd : mapDelete k ((k0, v0) :: rest) = (k0, v0) :: mapDelete k rest := by
          simp [mapDelete, h0]
        rw [hd]
        simp only [List.mem_cons, ih]
        constructor
        · rintro (rfl | ⟨hp, hne⟩)
          · exact ⟨Or.inl rfl, by simpa using h0⟩
          · exact ⟨Or.inr hp, hne⟩
        · rintro ⟨rfl | hp, hne⟩
          · exact Or.inl rfl
          · exact Or.inr ⟨hp, hne⟩

/-- When the key is fresh, `set` is a plain append. -/
theorem mapSet_of_get_none {κ α : Type} [DecidableEq κ] {k : κ} (v : α)
    {m : List (κ × α)} (h : mapGet k m = none) : mapSet k v m = m ++ [(k, v)] := by
  induction m with
  | nil => simp [mapSet]
  | cons p rest ih =>
      obtain ⟨k0, v0⟩ := p
      by_cases h0 : k0 = k
      · simp [mapGet, h0] at h
      · simp only [mapGet, if_neg h0] at h
        simp [mapSet, h0, ih h]

theorem mapDelete_sublist {κ α : Type} [DecidableEq κ] (k : κ)
    (m : List (κ × α)) : (mapDelete k m).Sublist m := by
  induction m with
  | nil => simp [mapDelete]
  | cons p rest ih =>
      obtain ⟨k0, v0⟩ := p
      by_cases h0 : k0 = k
      · have hd : mapDelete k ((k0, v0) :: rest) = mapDelete k rest := by
          simp [mapDelete, h0]
        rw [hd]
        exact List.Sublist.cons (k0, v0) ih
      · have hd : mapDelete k ((k0, v0) :: rest) = (k0, v0) :: mapDelete k rest := by
          simp [mapDelete, h0]
        rw [hd]
        exact List.Sublist.cons₂ (k0, v0) ih

/-! ## Field-creation permission precondition -/

/-- C3: `createField` performs a mutation only when the caller's role is
notary and `usedFields` has no entry for the requested type; when either
condition fails it returns the store unchanged and broadcasts nothing. -/
theorem createField_guard (env : CreateFieldEnv) (s : Store) (tpe : String)
    (x y w h : ℚ)
    (hblock : env.isNotary = false ∨ (mapGet tpe s.usedFields).isSome = true) :
    createField env s tpe x y w h = (s, none) := by
  rcases hblock with h1 | h1 <;> simp [createField, h1]

/-- Witness for C3: a client-side creation attempt, and a notary-side
attempt on an already-claimed type, both leave the store untouched. -/
theorem createField_guard_witness :
    (clientEnv.isNotary = false ∨
      (mapGet "text" emptyStore.usedFields).isSome = true) ∧
    createField clientEnv emptyStore "text" 100 100 150 30 =
      (emptyStore, none) ∧
    (sampleEnv.isNotary = false ∨
      (mapGet "text" (addField emptyStore sampleField).usedFields).isSome = true) ∧
    createField sampleEnv (addField emptyStore sampleField) "text" 100 100 150 30 =
      (addField emptyStore sampleField, none) :=
  ⟨Or.inl rfl,
   createField_guard clientEnv emptyStore "text" 100 100 150 30 (Or.inl rfl),
   Or.inr (by decide),
   createField_guard sampleEnv (addField emptyStore sampleField) "text" 100 100 150 30
     (Or.inr (by decide))⟩

/-! ## Normalization round-trip -/

/-- C4: a field created at pixel rect (100,100,150,30) on an 800×1000
canvas stores the normalized area (1/8, 1/10, 3/16, 3/100) =
(0.125, 0.1, 0.1875, 0.03), and denormalizing that area on a 400×500
receiver canvas reproduces the pixel rect (50,50,75,15). -/
theorem normalization_round_trip :
    ((createField sampleEnv emptyStore "text" 100 100 150 30).2.map
        (fun f => f.areas.map (fun a => (a.x, a.y, a.w, a.h)))
      = some [((1 : ℚ)/8, (1 : ℚ)/10, (3 : ℚ)/16, (3 : ℚ)/100)]) ∧
    ((createField sampleEnv emptyStore "text" 100 100 150 30).2.map
        (fun f => f.areas.map (fun a => denormalizeArea a 400 500))
      = some [((50 : ℚ), (50 : ℚ), (75 : ℚ), (15 : ℚ))]) := by
  constructor <;>
    · simp only [createField, sampleEnv, emptyStore, mapGet, denormalizeArea,
        Option.isSome_none, Bool.not_true, Bool.or_false, Bool.false_or,
        Bool.not_false, if_false, Option.map_some, List.map_cons, List.map_nil,
        Option.some.injEq, List.cons.injEq, and_true, Prod.mk.injEq]
      norm_num

/-! ## Malformed-message containment -/

/-- C8: an annotation data-channel message whose payload fails to parse, a
sync-socket string message, and a sync-socket binary or blob message that
fails to decode are all dropped with only a logged warning: the annotation
state and the store are left unchanged, and the (total) handlers raise
nothing. -/
theorem malformed_message_containment (s : AnnState) (st : Store) (msg : String) :
    onDataTrackMessage s none = s ∧
    wsOnMessage st (.textData msg) = st ∧
    wsOnMessage st (.binary none) = st ∧
    wsOnMessage st (.blobData none) = st :=
  ⟨rfl, rfl, rfl, rfl⟩

/-! ## Export gate on an empty approval map -/

/-- C10: with no approval entries at all, the all-approved check is
vacuously true and the export proceeds rather than being rejected — the
gate inspects only entries actually present in the approval map. -/
theorem export_gate_empty_approvals (fields : List PdfField)
    (submitters : List PdfSubmitter) (backend : BackendResult)
    (nowIso : String) :
    allApproved [] = true ∧
    handleExport [] fields submitters backend nowIso ≠ .blocked := by
  refine ⟨rfl, ?_⟩
  cases backend <;> simp [handleExport, allApproved]

/-! ## Export gating -/

/-- C1 counterexample: with three submitters of whom only two have approval
entries (both `true`) and the third has never toggled, the export is NOT
rejected — it proceeds to the backend save — contradicting the claim that
unknown participants are implicitly counted as not approved and that a
two-of-three approval state must be rejected. -/
theorem export_gating_cex :
    handleExport [("u1", true), ("u2", true)] [sampleField] sampleSubmitters
        .ok "2026-10-11" =
      .remoteSaved (createPdfTemplate [sampleField] sampleSubmitters
        "Sample Local PDF" "2026-10-11") ∧
    handleExport [("u1", true), ("u2", true)] [sampleField] sampleSubmitters
        .ok "2026-10-11" ≠ .blocked := by
  constructor
  · rfl
  · simp [handleExport, allApproved]

/-- C1 (amended): export is blocked exactly when some entry present in the
approval map is `false`; participants with no entry are ignored by the
gate. For three submitters where two have approved and the third holds an
explicit `false` entry, export is rejected; after the third toggles to
`true`, it succeeds and the payload carries exactly the then-current field
set. -/
theorem export_gating (approvals : List (String × Bool)) (fields : List PdfField)
    (submitters : List PdfSubmitter) (backend : BackendResult) (nowIso : String) :
    (handleExport approvals fields submitters backend nowIso = .blocked ↔
      allApproved approvals = false) ∧
    handleExport [("u1", true), ("u2", true), ("u3", false)] fields submitters
        backend nowIso = .blocked ∧
    handleExport (mapSet "u3" true [("u1", true), ("u2", true), ("u3", false)])
        fields submitters .ok nowIso =
      .remoteSaved (createPdfTemplate fields submitters "Sample Local PDF" nowIso) ∧
    (createPdfTemplate fields submitters "Sample Local PDF" nowIso).template.fields
      = fields := by
  refine ⟨?_, ?_, ?_, rfl⟩
  · cases hA : allApproved approvals
    · simp [handleExport, hA]
    · cases backend <;> simp [handleExport, hA]
  · simp [handleExport, allApproved]
  · have hm : mapSet "u3" true [("u1", true), ("u2", true), ("u3", false)] =
        [("u1", true), ("u2", true), ("u3", true)] := by decide
    rw [hm]
    simp [handleExport, allApproved]

/-! ## Export fallback -/

/-- C9: a permitted export tries the backend POST first; it ends in the
local download of the same payload exactly when the backend did not succeed
(thrown network failure or non-2xx response), and the two success paths
show the user different messages. -/
theorem export_fallback (approvals : List (String × Bool)) (fields : List PdfField)
    (submitters : List PdfSubmitter) (backend : BackendResult) (nowIso : String)
    (happ : allApproved approvals = true) :
    (backend = .ok →
      handleExport approvals fields submitters backend nowIso =
        .remoteSaved (createPdfTemplate fields submitters "Sample Local PDF" nowIso)) ∧
    (handleExport approvals fields submitters backend nowIso =
        .localDownload (createPdfTemplate fields submitters "Sample Local PDF" nowIso)
      ↔ backend ≠ .ok) ∧
    exportAlertText (.remoteSaved
        (createPdfTemplate fields submitters "Sample Local PDF" nowIso)) ≠
      exportAlertText (.localDownload
        (createPdfTemplate fields submitters "Sample Local PDF" nowIso)) := by
  refine ⟨?_, ?_, ?_⟩
  · rintro rfl; simp [handleExport, happ]
  · cases backend <;> simp [handleExport, happ]
  · intro h
    simp only [exportAlertText] at h
    exact absurd h (by decide)

/-- Witness for C9: with a single `true` approval entry and an unreachable
backend, the export falls back to the local download of the payload. -/
theorem export_fallback_witness :
    allApproved [("u1", true)] = true ∧
    ((BackendResult.networkError = .ok →
      handleExport [("u1", true)] [] [] .networkError "t" =
        .remoteSaved (createPdfTemplate [] [] "Sample Local PDF" "t")) ∧
    (handleExport [("u1", true)] [] [] .networkError "t" =
        .localDownload (createPdfTemplate [] [] "Sample Local PDF" "t")
      ↔ BackendResult.networkError ≠ .ok) ∧
    exportAlertText (.remoteSaved (createPdfTemplate [] [] "Sample Local PDF" "t")) ≠
      exportAlertText (.localDownload (createPdfTemplate [] [] "Sample Local PDF" "t"))) :=
  ⟨rfl, export_fallback [("u1", true)] [] [] .networkError "t" rfl⟩

/-! ## Clear semantics -/

/-- C6: a remote `ClearOp(page=p)` empties both accumulation lists of page
`p` and leaves every other page's lists untouched; the local `clearPage`
(notary with an open data track) does the same for the current page and
broadcasts the clear op. -/
theorem clear_semantics (s : AnnState) (p q r : Nat) (hq : q ≠ p)
    (hr : r ≠ s.currentPage) :
    mapGetD p (handleRemoteData s (.clear p)).drawings [] = [] ∧
    mapGetD p (handleRemoteData s (.clear p)).texts [] = [] ∧
    mapGetD q (handleRemoteData s (.clear p)).drawings [] = mapGetD q s.drawings [] ∧
    mapGetD q (handleRemoteData s (.clear p)).texts [] = mapGetD q s.texts [] ∧
    mapGetD s.currentPage (clearPage true true s).1.drawings [] = [] ∧
    mapGetD s.currentPage (clearPage true true s).1.texts [] = [] ∧
    mapGetD r (clearPage true true s).1.drawings [] = mapGetD r s.drawings [] ∧
    mapGetD r (clearPage true true s).1.texts [] = mapGetD r s.texts [] ∧
    (clearPage true true s).2 = some (.clear s.currentPage) := by
  have h1 : handleRemoteData s (.clear p) =
      { s with drawings := mapSet p [] s.drawings,
               texts := mapSet p [] s.texts } := rfl
  have h2 : (clearPage true true s).1 =
      { s with drawings := mapSet s.currentPage [] s.drawings,
               texts := mapSet s.currentPage [] s.texts } := rfl
  refine ⟨?_, ?_, ?_, ?_, ?_, ?_, ?_, ?_, rfl⟩ <;>
    simp [h1, h2, mapGetD, mapGet_mapSet_self,
      mapGet_mapSet_ne _ _ (Ne.symm hq), mapGet_mapSet_ne _ _ (Ne.symm hr)]

/-- Witness for C6 at a concrete state: clearing page 1 empties its lists
while page 2 is untouched. -/
theorem clear_semantics_witness :
    (2 ≠ 1) ∧ (2 ≠ annState0.currentPage) ∧
    mapGetD 1 (handleRemoteData annState0 (.clear 1)).drawings [] = [] ∧
    mapGetD 1 (handleRemoteData annState0 (.clear 1)).texts [] = [] ∧
    mapGetD 2 (handleRemoteData annState0 (.clear 1)).drawings [] =
      mapGetD 2 annState0.drawings [] ∧
    mapGetD 2 (handleRemoteData annState0 (.clear 1)).texts [] =
      mapGetD 2 annState0.texts [] ∧
    mapGetD annState0.currentPage (clearPage true true annState0).1.drawings [] = [] ∧
    mapGetD annState0.currentPage (clearPage true true annState0).1.texts [] = [] ∧
    mapGetD 2 (clearPage true true annState0).1.drawings [] =
      mapGetD 2 annState0.drawings [] ∧
    mapGetD 2 (clearPage true true annState0).1.texts [] =
      mapGetD 2 annState0.texts [] ∧
    (clearPage true true annState0).2 = some (.clear annState0.currentPage) := by
  have h := clear_semantics annState0 1 2 2 (by decide) (by decide)
  exact ⟨by decide, by decide, h.1, h.2.1, h.2.2.1, h.2.2.2.1, h.2.2.2.2.1,
    h.2.2.2.2.2.1, h.2.2.2.2.2.2.1, h.2.2.2.2.2.2.2.1, h.2.2.2.2.2.2.2.2⟩

/-! ## updateField contract -/

/-- C7: `updateField` is a no-op when no record with the id exists; when a
record exists it is replaced by the shallow merge of the old record with
the given attributes, and an update carrying an `areas` list replaces the
entire previous list. -/
theorem updateField_contract (s : Store) (fieldId : String) (u : PdfFieldUpdate)
    (f : PdfField) (l : List PdfFieldArea) :
    (mapGet fieldId s.fields = none → updateField s fieldId u = s) ∧
    (mapGet fieldId s.fields = some f →
      updateField s fieldId u =
        { s with fields := mapSet fieldId (mergeField f u) s.fields } ∧
      mapGet fieldId (updateField s fieldId u).fields = some (mergeField f u) ∧
      (u.areas = some l → (mergeField f u).areas = l)) := by
  constructor
  · intro h; simp [updateField, h]
  · intro h
    refine ⟨by simp [updateField, h], ?_, ?_⟩
    · simp [updateField, h, mapGet_mapSet_self]
    · intro hl; simp [mergeField, hl]

/-- Witness for C7: updating a missing id is a no-op; updating the sample
field with an `areas`-only update replaces the whole areas list. -/
theorem updateField_contract_witness :
    mapGet "zz" (addField emptyStore sampleField).fields = none ∧
    updateField (addField emptyStore sampleField) "zz" areaUpdate =
      addField emptyStore sampleField ∧
    mapGet "f1" (addField emptyStore sampleField).fields = some sampleField ∧
    updateField (addField emptyStore sampleField) "f1" areaUpdate =
      { addField emptyStore sampleField with
        fields := mapSet "f1" (mergeField sampleField areaUpdate)
          (addField emptyStore sampleField).fields } ∧
    mapGet "f1" (updateField (addField emptyStore sampleField) "f1" areaUpdate).fields
      = some (mergeField sampleField areaUpdate) ∧
    areaUpdate.areas = some [⟨1/2, 1/2, 1/10, 1/20, 2, "att-2"⟩] ∧
    (mergeField sampleField areaUpdate).areas = [⟨1/2, 1/2, 1/10, 1/20, 2, "att-2"⟩] := by
  have hmiss := (updateField_contract (addField emptyStore sampleField) "zz"
    areaUpdate sampleField [⟨1/2, 1/2, 1/10, 1/20, 2, "att-2"⟩]).1 rfl
  have hhit := (updateField_contract (addField emptyStore sampleField) "f1"
    areaUpdate sampleField [⟨1/2, 1/2, 1/10, 1/20, 2, "att-2"⟩]).2 rfl
  exact ⟨rfl, hmiss, rfl, hhit.1, hhit.2.1, rfl, hhit.2.2 rfl⟩

/-! ## Live-segment versus full-stroke dispatch -/

/-- C5 counterexample: a two-point remote draw op addressed to a page other
than the currently displayed one is NOT left out of the accumulation list —
it is appended, changing the list's length — contradicting the claim for
every incoming 2-point op. -/
theorem live_segment_dispatch_cex :
    liveSegOtherPage.path.length = 2 ∧
    (mapGetD 2 (handleRemoteData annState0 (.draw liveSegOtherPage)).drawings []).length ≠
      (mapGetD 2 annState0.drawings []).length := by
  constructor
  · rfl
  · decide

/-- C5 (amended): a two-point remote draw op for the currently displayed
page (with the overlay mounted) is stroked directly onto the overlay and
leaves the accumulation lists unchanged; a two-point op for another page
(or with no overlay) is appended to its page's accumulation list like a
full stroke, and an op with more than two points appends exactly one record
to its page's list, leaving other pages and the text lists unchanged. -/
theorem live_segment_dispatch (s : AnnState) (d : DrawOp) (q : Nat)
    (hq : q ≠ d.page) :
    (d.path.length = 2 → s.overlayPresent = true → d.page = s.currentPage →
      (handleRemoteData s (.draw d)).drawings = s.drawings ∧
      (handleRemoteData s (.draw d)).texts = s.texts ∧
      (handleRemoteData s (.draw d)).overlaySegs =
        s.overlaySegs ++ [liveSegmentOf s d]) ∧
    (d.path.length = 2 → (s.overlayPresent = false ∨ d.page ≠ s.currentPage) →
      mapGetD d.page (handleRemoteData s (.draw d)).drawings [] =
        mapGetD d.page s.drawings [] ++ [d]) ∧
    (2 < d.path.length →
      mapGetD d.page (handleRemoteData s (.draw d)).drawings [] =
        mapGetD d.page s.drawings [] ++ [d] ∧
      mapGetD q (handleRemoteData s (.draw d)).drawings [] =
        mapGetD q s.drawings [] ∧
      (handleRemoteData s (.draw d)).texts = s.texts) := by
  refine ⟨?_, ?_, ?_⟩
  · intro h2 hov hpg
    have hcond : (d.path.length == 2 && s.overlayPresent &&
        (d.page == s.currentPage)) = true := by simp [h2, hov, hpg]
    simp [handleRemoteData, hcond]
  · intro h2 hbad
    have hcond : (d.path.length == 2 && s.overlayPresent &&
        (d.page == s.currentPage)) = false := by
      rcases hbad with hov | hpg
      · simp [hov]
      · simp [hpg]
    simp [handleRemoteData, hcond, appendDrawing, mapGetD, mapGet_mapSet_self]
  · intro hgt
    have hlen : (d.path.length == 2) = false := by
      simp only [beq_eq_false_iff_ne, ne_eq]
      omega
    have hcond : (d.path.length == 2 && s.overlayPresent &&
        (d.page == s.currentPage)) = false := by simp [hlen]
    refine ⟨?_, ?_, ?_⟩
    · simp [handleRemoteData, hcond, appendDrawing, mapGetD, mapGet_mapSet_self]
    · simp [handleRemoteData, hcond, appendDrawing, mapGetD,
        mapGet_mapSet_ne _ _ (Ne.symm hq)]
    · simp [handleRemoteData, hcond, appendDrawing]

/-- Witness for C5 at concrete inputs: a same-page two-point segment leaves
the accumulation lists untouched and strokes the overlay; an other-page
two-point segment and a five-point stroke are appended. -/
theorem live_segment_dispatch_witness :
    (2 ≠ liveSegSamePage.page) ∧ liveSegSamePage.path.length = 2 ∧
    annState0.overlayPresent = true ∧ liveSegSamePage.page = annState0.currentPage ∧
    ((handleRemoteData annState0 (.draw liveSegSamePage)).drawings =
      annState0.drawings ∧
    (handleRemoteData annState0 (.draw liveSegSamePage)).texts = annState0.texts ∧
    (handleRemoteData annState0 (.draw liveSegSamePage)).overlaySegs =
      annState0.overlaySegs ++ [liveSegmentOf annState0 liveSegSamePage]) ∧
    (1 ≠ liveSegOtherPage.page) ∧ liveSegOtherPage.path.length = 2 ∧
    (liveSegOtherPage.page ≠ annState0.currentPage) ∧
    mapGetD liveSegOtherPage.page
        (handleRemoteData annState0 (.draw liveSegOtherPage)).drawings [] =
      mapGetD liveSegOtherPage.page annState0.drawings [] ++ [liveSegOtherPage] ∧
    (2 ≠ fullStroke5.page) ∧ 2 < fullStroke5.path.length ∧
    (mapGetD fullStroke5.page
        (handleRemoteData annState0 (.draw fullStroke5)).drawings [] =
      mapGetD fullStroke5.page annState0.drawings [] ++ [fullStroke5] ∧
    mapGetD 2 (handleRemoteData annState0 (.draw fullStroke5)).drawings [] =
      mapGetD 2 annState0.drawings [] ∧
    (handleRemoteData annState0 (.draw fullStroke5)).texts = annState0.texts) := by
  have hsame := (live_segment_dispatch annState0 liveSegSamePage 2 (by decide)).1
    rfl rfl rfl
  have hother := (live_segment_dispatch annState0 liveSegOtherPage 1 (by decide)).2.1
    rfl (Or.inr (by decide))
  have hfull := (live_segment_dispatch annState0 fullStroke5 2 (by decide)).2.2
    (by decide)
  exact ⟨by decide, rfl, rfl, rfl, hsame, by decide, rfl, by decide, hother,
    by decide, by decide, hfull⟩

/-! ## Used-fields exclusivity invariant -/

theorem mapGet_eq_none_iff {κ α : Type} [DecidableEq κ] {k : κ}
    {m : List (κ × α)} : mapGet k m = none ↔ k ∉ m.map Prod.fst := by
  induction m with
  | nil => simp [mapGet]
  | cons p rest ih =>
      obtain ⟨k0, v0⟩ := p
      by_cases h0 : k0 = k
      · simp [mapGet, h0]
      · simp only [mapGet, if_neg h0, List.map_cons, List.mem_cons, not_or, ih]
        constructor
        · intro hk; exact ⟨fun h1 => h0 h1.symm, hk⟩
        · intro hk; exact hk.2

theorem mapGet_mem {κ α : Type} [DecidableEq κ] {k : κ} {v : α}
    {m : List (κ × α)} (h : mapGet k m = some v) : (k, v) ∈ m := by
  induction m with
  | nil => simp [mapGet] at h
  | cons p rest ih =>
      obtain ⟨k0, v0⟩ := p
      by_cases h0 : k0 = k
      · simp only [mapGet, if_pos h0, Option.some.injEq] at h
        subst h0; subst h
        exact List.mem_cons_self _ _
      · simp only [mapGet, if_neg h0] at h
        exact List.mem_cons_of_mem _ (ih h)

theorem emptyStore_wf : StoreWF emptyStore := by
  refine ⟨by simp [emptyStore], by simp [emptyStore], ?_⟩
  intro t
  simp [emptyStore, mapGet]

theorem storeWF_addField {s : Store} (hWF : StoreWF s) (f : PdfField)
    (ht : mapGet f.type s.usedFields = none) (hi : mapGet f.id s.fields = none) :
    StoreWF (addField s f) := by
  have hfields : (addField s f).fields = s.fields ++ [(f.id, f)] :=
    mapSet_of_get_none f hi
  have hused : (addField s f).usedFields =
      mapSet f.type f.submitter_uuid s.usedFields := rfl
  have hid_not : f.id ∉ s.fields.map Prod.fst := mapGet_eq_none_iff.mp hi
  have htype_not : ∀ p ∈ s.fields, p.2.type ≠ f.type := by
    intro p hp hpt
    have hsome : (mapGet f.type s.usedFields).isSome = true :=
      (hWF.used f.type).mpr ⟨p, hp, hpt⟩
    rw [ht] at hsome
    simp at hsome
  refine ⟨?_, ?_, ?_⟩
  · rw [hfields, List.map_append, List.nodup_append]
    refine ⟨hWF.keys, by simp, ?_⟩
    intro a ha hb
    simp only [List.map_cons, List.map_nil, List.mem_singleton] at hb
    subst hb
    exact hid_not ha
  · rw [hfields, List.map_append, List.nodup_append]
    refine ⟨hWF.types, by simp, ?_⟩
    intro a ha hb
    simp only [List.map_cons, List.map_nil, List.mem_singleton] at hb
    subst hb
    obtain ⟨p, hp, hpt⟩ := List.mem_map.mp ha
    exact htype_not p hp hpt
  · intro t
    rw [hfields, hused]
    by_cases hT : t = f.type
    · subst hT
      rw [mapGet_mapSet_self]
      simp only [Option.isSome_some, true_iff]
      exact ⟨(f.id, f), by simp, rfl⟩
    · rw [mapGet_mapSet_ne _ _ (fun hh => hT hh.symm), hWF.used t]
      constructor
      · rintro ⟨p, hp, hpt⟩
        exact ⟨p, List.mem_append_left _ hp, hpt⟩
      · rintro ⟨p, hp, hpt⟩
        rcases List.mem_append.mp hp with h1 | h1
        · exact ⟨p, h1, hpt⟩
        · simp only [List.mem_singleton] at h1
          subst h1
          exact absurd hpt.symm hT

theorem storeWF_deleteField {s : Store} (hWF : StoreWF s) (i : String) :
    StoreWF (deleteField s i) := by
  cases hg : mapGet i s.fields with
  | none => simpa [deleteField, hg] using hWF
  | some f =>
      have hmem : (i, f) ∈ s.fields := mapGet_mem hg
      have hfields : (deleteField s i).fields = mapDelete i s.fields := by
        simp [deleteField, hg]
      have hused : (deleteField s i).usedFields =
          mapDelete f.type s.usedFields := by
        simp [deleteField, hg]
      refine ⟨?_, ?_, ?_⟩
      · rw [hfields]
        exact hWF.keys.sublist (List.Sublist.map _ (mapDelete_sublist i s.fields))
      · rw [hfields]
        exact hWF.types.sublist (List.Sublist.map _ (mapDelete_sublist i s.fields))
      · intro t
        rw [hfields, hused]
        by_cases hT : t = f.type
        · subst hT
          rw [mapGet_mapDelete_self]
          simp only [Option.isSome_none, Bool.false_eq_true, false_iff, not_exists]
          rintro p hp
          rw [mem_mapDelete] at hp
          obtain ⟨⟨hpmem, hpne⟩, hpt⟩ := hp
          have hpe : p = (i, f) :=
            List.inj_on_of_nodup_map hWF.types hpmem hmem (by rw [hpt])
          exact hpne (by rw [hpe])
        · rw [mapGet_mapDelete_ne _ (fun hh => hT hh.symm), hWF.used t]
          constructor
          · rintro ⟨p, hp, hpt⟩
            refine ⟨p, mem_mapDelete.mpr ⟨hp, ?_⟩, hpt⟩
            intro hpi
            have hpe : p = (i, f) :=
              List.inj_on_of_nodup_map hWF.keys hp hmem (by rw [hpi])
            rw [hpe] at hpt
            exact hT hpt.symm
          · rintro ⟨p, hp, hpt⟩
            exact ⟨p, (mem_mapDelete.mp hp).1, hpt⟩

theorem storeWF_applyStoreOps (ops : List StoreOp) :
    ∀ s : Store, StoreWF s → guardedOpsB s ops = true →
      StoreWF (applyStoreOps s ops) := by
  induction ops with
  | nil =>
      intro s hWF _
      simpa [applyStoreOps] using hWF
  | cons op rest ih =>
      intro s hWF h
      cases op with
      | add f =>
          simp only [guardedOpsB, Bool.and_eq_true, Option.isNone_iff_eq_none] at h
          obtain ⟨⟨ht, hi⟩, hrest⟩ := h
          exact ih (addField s f) (storeWF_addField hWF f ht hi) hrest
      | del i =>
          simp only [guardedOpsB] at h
          exact ih (deleteField s i) (storeWF_deleteField hWF i) h

/-- C2 counterexample: the sequence add(text field "a"), add(text field
"b"), delete("a") — a sequence of `addField`/`deleteField` operations —
leaves a live text field while `usedFields` has no entry for `"text"`: the
claimed iff fails for unrestricted sequences because `deleteField` clears
the type's entry unconditionally and `addField` never re-validates. -/
theorem used_fields_exclusivity_cex :
    ¬ ((mapGet "text" usedFieldsCexStore.usedFields).isSome = true ↔
        ∃ p ∈ usedFieldsCexStore.fields, p.2.type = "text") := by
  intro hiff
  have h1 : (mapGet "text" usedFieldsCexStore.usedFields).isSome = true :=
    hiff.mpr ⟨("b", fieldTextB), by
      rw [show usedFieldsCexStore.fields = [("b", fieldTextB)] from rfl]
      exact List.mem_singleton.mpr rfl, rfl⟩
  rw [show (mapGet "text" usedFieldsCexStore.usedFields).isSome = false from rfl] at h1
  simp at h1

/-- C2 (amended): for every sequence of `addField`/`deleteField` operations
from the empty store in which each `addField` runs only under the editing
surface's preconditions — the field's type has no `usedFields` entry and
its id is fresh — the `usedFields` map has an entry for a type iff some
live field of that type exists. -/
theorem used_fields_exclusivity (ops : List StoreOp) (t : String)
    (h : guardedOpsB emptyStore ops = true) :
    ((mapGet t (applyStoreOps emptyStore ops).usedFields).isSome = true ↔
      ∃ p ∈ (applyStoreOps emptyStore ops).fields, p.2.type = t) :=
  (storeWF_applyStoreOps ops emptyStore emptyStore_wf h).used t

/-- Witness for C2: the guarded sequence add "a", delete "a", add "b"
satisfies the invariant at type "text". -/
theorem used_fields_exclusivity_witness :
    guardedOpsB emptyStore sampleOps = true ∧
    ((mapGet "text" (applyStoreOps emptyStore sampleOps).usedFields).isSome = true ↔
      ∃ p ∈ (applyStoreOps emptyStore sampleOps).fields, p.2.type = "text") :=
  ⟨rfl, used_fields_exclusivity sampleOps "text" rfl⟩

end VideoCall
